import Mathlib

/-!
# Shallow embedding of `src/log.c` (i3 logging module)

The module keeps four pieces of process-wide state
(`static uint64_t loglevel = 0; static bool verbose = true;
static FILE *errorfile; char *errorfilename;`) and exposes
`init_logging`, `set_verbosity`, `add_loglevel`, `verboselog`,
`errorlog`, `debuglog`, all funneling stdout writes through `vlog`.

Modelling conventions:
* machine integers are `Nat` reduced modulo `2 ^ w` where overflow matters;
* the stdout channel is the `List String` of write events a call performs;
* a `FILE *` that may be `NULL` is an `Option`; the error-log stream is a
  pair of already-flushed bytes and still-buffered bytes;
* `printf`-style formatting is kept abstract: a call site's
  "expansion of `fmt` against `args`" is passed in as one `String`, and the
  `strftime` time prefix (wall-clock dependent) likewise;
* a C call that dereferences a `NULL` stream does not return normally; such
  calls produce `none` in place of a successor state.
-/

/-- `UINT64_MAX`, the value `add_loglevel` assigns for the name `"all"`. -/
def UINT64_MAX : Nat := 2 ^ 64 - 1

/-- ASCII lowercasing of one byte, as C `tolower` in the C locale does. -/
def asciiLower (c : Char) : Char :=
  if 'A' ≤ c ∧ c ≤ 'Z' then Char.ofNat (c.toNat + 32) else c

/-- `strcasecmp(a, b) == 0`: the two strings are equal up to ASCII case. -/
def strcaseeq (a b : String) : Bool :=
  a.data.map asciiLower == b.data.map asciiLower

/-- The buffered stream behind an open `FILE *`: bytes already flushed to the
on-disk file, and bytes still pending in the stdio buffer. -/
structure FileState where
  flushed : String
  pending : String
deriving DecidableEq, Repr

/-- The module's static state: `loglevel` (a `uint64_t`, kept `< 2 ^ 64`),
`verbose`, `errorfile` (`NULL` ↦ `none`), `errorfilename` (`NULL` ↦ `none`). -/
structure LogState where
  loglevel : Nat
  verbose : Bool
  errorfile : Option FileState
  errorfilename : Option String
deriving DecidableEq, Repr

/-- The state at program startup: static zero-initialization gives
`loglevel = 0`, `verbose = true`, both pointers `NULL`. -/
def initState : LogState :=
  { loglevel := 0, verbose := true, errorfile := none, errorfilename := none }

/-- `vlog(fmt, args)`: one stdout write of the `strftime` time prefix
(`timebuf`) immediately followed by the expansion `msg` of `fmt`. -/
def vlog (timebuf msg : String) : String :=
  timebuf ++ msg

/-- `set_verbosity(_verbose)`: overwrite the `verbose` flag. -/
def set_verbosity (b : Bool) (s : LogState) : LogState :=
  { s with verbose := b }

/-- The value the C expression `1 << sh` contributes when OR-ed into the
`uint64_t` mask: `1` has type `int` (32-bit, two's complement), so the shift
wraps at 32 bits and the result is sign-extended on conversion to 64 bits.
For `sh ≥ 31` the C shift is undefined behavior; this definition follows the
common two's-complement outcome for `sh = 31` (bit pattern `0x80000000`,
value `INT_MIN`, converted to `2 ^ 64 - 2 ^ 31`). -/
def cIntShiftToU64 (sh : Nat) : Nat :=
  let v32 := (1 <<< sh) % 2 ^ 32
  if v32 < 2 ^ 31 then v32 else 2 ^ 64 - 2 ^ 32 + v32

/-- `add_loglevel(level)` over a host category list `loglevels` (the
autogenerated `loglevels.h` array). `"all"` (case-insensitive) assigns
`UINT64_MAX`; otherwise the first case-insensitive match at index `i` ORs in
`1 << (i+1)` and breaks; no match leaves the state unchanged. The function
performs no output; the `List String` component records its (empty) stdout
writes. -/
def add_loglevel (loglevels : List String) (s : LogState) (level : String) :
    List String × LogState :=
  if strcaseeq level "all" then
    ([], { s with loglevel := UINT64_MAX })
  else
    match loglevels.findIdx? (fun l => strcaseeq l level) with
    | some i => ([], { s with loglevel := s.loglevel ||| cIntShiftToU64 (i + 1) })
    | none => ([], s)

/-- `verboselog(fmt, ...)`: return immediately when `verbose` is unset,
otherwise write the time-prefixed message to stdout. -/
def verboselog (s : LogState) (timebuf msg : String) : List String :=
  if !s.verbose then [] else [vlog timebuf msg]

/-- `errorlog(fmt, ...)`: write the time-prefixed message to stdout, then
`vfprintf(errorfile, fmt, args); fflush(errorfile);` with no `NULL` check.
When `errorfile` is `NULL` the `vfprintf` dereferences a null stream and the
call does not return normally (`none`); otherwise the expansion of `fmt`
(without time prefix) is appended to the stream and the stream is flushed. -/
def errorlog (s : LogState) (timebuf msg : String) :
    List String × Option LogState :=
  ([vlog timebuf msg],
    match s.errorfile with
    | none => none
    | some f =>
        some { s with errorfile := some ⟨f.flushed ++ f.pending ++ msg, ""⟩ })

/-- `debuglog(lev, fmt, ...)`: return immediately when
`(loglevel & lev) == 0`, otherwise write the time-prefixed message to
stdout. The `verbose` flag is not consulted. -/
def debuglog (s : LogState) (lev : Nat) (timebuf msg : String) : List String :=
  if s.loglevel &&& lev == 0 then [] else [vlog timebuf msg]

/-- `init_logging()`. Host path resolution (`get_process_filename`, defined
outside this module) is the parameter `resolved` (`NULL` ↦ `none`), and
success of `fopen(errorfilename, "w")` is the parameter `fopenOk`
(`"w"` truncates, so a fresh open stream holds no bytes). Modelled from the
spec: the `ELOG` wrapper (from the headers, not under `src/`) emits through
the normal error emit path, i.e. `errorlog`, with a message mentioning
"Could not initialize errorlog". -/
def init_logging (s : LogState) (resolved : Option String) (fopenOk : Bool)
    (timebuf : String) : List String × Option LogState :=
  match resolved with
  | none => errorlog s timebuf "Could not initialize errorlog\n"
  | some name =>
      ([], some { s with
        errorfilename := some name,
        errorfile := if fopenOk then some ⟨"", ""⟩ else none })

/-- Folding a sequence of `add_loglevel` calls over a state. -/
def applyAdds (loglevels : List String) (s : LogState) (names : List String) :
    LogState :=
  names.foldl (fun s n => (add_loglevel loglevels s n).2) s

/-- A host category list with 31 entries; the interesting name sits at
index 30, so enabling it shifts `1` left by 31 places. -/
def hostList31 : List String := List.replicate 30 "other" ++ ["deep"]

/-- Case-insensitive string equality is transitive. -/
theorem strcaseeq_trans {a b c : String} (h₁ : strcaseeq a b = true)
    (h₂ : strcaseeq b c = true) : strcaseeq a c = true := by
  simp only [strcaseeq, beq_iff_eq] at *
  exact h₁.trans h₂

/-- A nonzero `uint64_t` value survives masking with the all-ones mask. -/
theorem and_maxmask_ne_zero {lev : Nat} (hpos : 0 < lev) (hlt : lev < 2 ^ 64) :
    (2 ^ 64 - 1) &&& lev ≠ 0 := by
  have hand : (2 ^ 64 - 1) &&& lev = lev := by
    refine Nat.eq_of_testBit_eq fun i => ?_
    rw [Nat.testBit_and, Nat.testBit_two_pow_sub_one]
    by_cases hi : i < 64
    · simp [hi]
    · have hfalse : lev.testBit i = false :=
        Nat.testBit_eq_false_of_lt
          (lt_of_lt_of_le hlt (Nat.pow_le_pow_right (by norm_num) (le_of_not_lt hi)))
      simp [hi, hfalse]
  rw [hand]
  exact hpos.ne'

/-- Only `add_loglevel` changes the mask, and its mask result depends only on
the incoming mask and the requested name (not on the other state fields). -/
theorem add_loglevel_mask_congr (L : List String) (s s' : LogState)
    (name : String) (hmask : s.loglevel = s'.loglevel) :
    (add_loglevel L s name).2.loglevel = (add_loglevel L s' name).2.loglevel := by
  by_cases hall : strcaseeq name "all" = true
  · simp [add_loglevel, hall]
  · cases hfind : L.findIdx? (fun l => strcaseeq l name) <;>
      simp [add_loglevel, hall, hfind, hmask]

example : strcaseeq "ALL" "all" = true := by decide
example : strcaseeq "ipc" "all" = false := by decide
example : cIntShiftToU64 3 = 8 := by decide
example : cIntShiftToU64 31 = 2 ^ 64 - 2 ^ 31 := by decide
example :
    (add_loglevel ["event", "ipc"] initState "ipc").2.loglevel = 4 := by decide
example :
    debuglog (add_loglevel ["event", "ipc"] initState "ipc").2 4 "T" "hi\n"
      = ["Thi\n"] := by decide
example :
    debuglog (add_loglevel ["event", "ipc"] initState "ipc").2 2 "T" "no\n"
      = [] := by decide
example : (errorlog initState "T" "x\n") = (["Tx\n"], none) := by decide

/-- C1: the claim says an `error(...)` call made while the error-log stream
is absent still returns without faulting, and that `initialize()` on path
resolution failure emits one error line and leaves the module usable. The
code evaluates otherwise: `errorlog` passes the `NULL` stream to `vfprintf`
unconditionally, so at the fresh state the call writes its stdout line and
then does not return normally (`none`), and `init_logging` with failed path
resolution faults inside its own `ELOG`. -/
theorem c1_errorlog_faults_without_stream :
    errorlog initState "01/01/26 00:00:00 - " "x\n"
      = (["01/01/26 00:00:00 - x\n"], none) ∧
    init_logging initState none false "01/01/26 00:00:00 - "
      = (["01/01/26 00:00:00 - Could not initialize errorlog\n"], none) :=
  ⟨rfl, rfl⟩

/-- C2: the claim says enabling the name at index `i` of a host list of
length ≤ 63 sets exactly bit `i + 1` of the 64-bit mask, for every
`0 ≤ i ≤ 62`. The code evaluates otherwise at index 30 of a 31-entry list:
`1 << 31` is computed in a 32-bit `int` and sign-extends to
`0xFFFFFFFF80000000` when OR-ed into the `uint64_t` mask, so bits 31–63 are
all set, the mask differs from `2 ^ 31`, and the debug gate admits bit 63,
which was never enabled. -/
theorem c2_int_shift_sign_extends :
    (add_loglevel hostList31 initState "deep").2.loglevel = 2 ^ 64 - 2 ^ 31 ∧
    (add_loglevel hostList31 initState "deep").2.loglevel ≠ 2 ^ 31 ∧
    Nat.testBit (add_loglevel hostList31 initState "deep").2.loglevel 63 = true ∧
    debuglog (add_loglevel hostList31 initState "deep").2 (2 ^ 63) "T " "hi\n"
      = ["T hi\n"] := by
  refine ⟨by decide, by decide, by decide, by decide⟩

/-- C3: when the error-log stream is present, `error(fmt, args)` writes the
time-prefixed message to stdout, appends exactly the expansion of `fmt`
(without the time prefix) to the stream, and flushes it before returning
(the successor stream has an empty pending buffer). -/
theorem c3_error_file_append_and_flush (s : LogState) (f : FileState)
    (t msg : String) (h : s.errorfile = some f) :
    errorlog s t msg
      = ([t ++ msg],
         some { s with errorfile := some ⟨f.flushed ++ f.pending ++ msg, ""⟩ }) := by
  simp [errorlog, vlog, h]

theorem c3_witness :
    errorlog { initState with errorfile := some ⟨"a", "b"⟩ } "T " "boom\n"
      = (["T " ++ "boom\n"],
         some { { initState with errorfile := some ⟨"a", "b"⟩ } with
                errorfile := some ⟨"a" ++ "b" ++ "boom\n", ""⟩ }) :=
  c3_error_file_append_and_flush
    { initState with errorfile := some ⟨"a", "b"⟩ } ⟨"a", "b"⟩ "T " "boom\n" rfl

/-- C4: `debug(category_bits, ...)` produces stdout output iff
`(level_mask AND category_bits) ≠ 0`; when it does, the output is the one
time-prefixed message, and the verbosity flag has no effect on this channel
in either state. -/
theorem c4_debug_gate (s : LogState) (lev : Nat) (t msg : String) :
    (debuglog s lev t msg ≠ [] ↔ s.loglevel &&& lev ≠ 0) ∧
    (s.loglevel &&& lev ≠ 0 → debuglog s lev t msg = [vlog t msg]) ∧
    (∀ b, debuglog (set_verbosity b s) lev t msg = debuglog s lev t msg) := by
  by_cases h : s.loglevel &&& lev = 0 <;>
    simp [debuglog, set_verbosity, h]

theorem c4_witness :
    (debuglog (add_loglevel ["event", "ipc"] initState "ipc").2 4 "T " "hi\n" ≠ []
        ↔ (add_loglevel ["event", "ipc"] initState "ipc").2.loglevel &&& 4 ≠ 0) ∧
    ((add_loglevel ["event", "ipc"] initState "ipc").2.loglevel &&& 4 ≠ 0 →
      debuglog (add_loglevel ["event", "ipc"] initState "ipc").2 4 "T " "hi\n"
        = [vlog "T " "hi\n"]) ∧
    (∀ b, debuglog (set_verbosity b (add_loglevel ["event", "ipc"] initState "ipc").2)
            4 "T " "hi\n"
        = debuglog (add_loglevel ["event", "ipc"] initState "ipc").2 4 "T " "hi\n") :=
  c4_debug_gate (add_loglevel ["event", "ipc"] initState "ipc").2 4 "T " "hi\n"

/-- C5: `add_loglevel` with any letter-case variant of `"all"` sets every
one of the 64 mask bits, so every subsequent `debug` call with nonzero
`category_bits` (any `uint64_t` value, bit 0 and bit 63 included) emits its
time-prefixed message. -/
theorem c5_all_enables_everything (L : List String) (s : LogState)
    (name : String) (lev : Nat) (t msg : String)
    (hname : strcaseeq name "all" = true) (hpos : 0 < lev)
    (hlt : lev < 2 ^ 64) :
    (add_loglevel L s name).2.loglevel = UINT64_MAX ∧
    debuglog (add_loglevel L s name).2 lev t msg = [vlog t msg] := by
  have hmask : (add_loglevel L s name).2.loglevel = UINT64_MAX := by
    simp [add_loglevel, hname]
  have hne : (2 ^ 64 - 1) &&& lev ≠ 0 := and_maxmask_ne_zero hpos hlt
  refine ⟨hmask, ?_⟩
  have hbeq : ((add_loglevel L s name).2.loglevel &&& lev == 0) = false := by
    rw [hmask, UINT64_MAX]
    exact beq_eq_false_iff_ne.mpr hne
  simp [debuglog, hbeq]

theorem c5_witness :
    ((add_loglevel ["event", "ipc"] initState "All").2.loglevel = UINT64_MAX ∧
      debuglog (add_loglevel ["event", "ipc"] initState "All").2 1 "T " "a\n"
        = [vlog "T " "a\n"]) ∧
    ((add_loglevel ["event", "ipc"] initState "ALL").2.loglevel = UINT64_MAX ∧
      debuglog (add_loglevel ["event", "ipc"] initState "ALL").2 (2 ^ 63) "T " "b\n"
        = [vlog "T " "b\n"]) :=
  ⟨c5_all_enables_everything ["event", "ipc"] initState "All" 1 "T " "a\n"
      (by decide) (by decide) (by norm_num),
   c5_all_enables_everything ["event", "ipc"] initState "ALL" (2 ^ 63) "T " "b\n"
      (by decide) (by norm_num) (by norm_num)⟩

/-- C6: after `set_verbosity(false)`, `info` produces no stdout output; after
`set_verbosity(true)` it produces its time-prefixed line; and `error` writes
its time-prefixed line to stdout in either verbosity state. -/
theorem c6_verbosity_gates_info_only (s : LogState) (t msg : String) :
    verboselog (set_verbosity false s) t msg = [] ∧
    verboselog (set_verbosity true s) t msg = [vlog t msg] ∧
    ∀ b, (errorlog (set_verbosity b s) t msg).1 = [vlog t msg] :=
  ⟨rfl, rfl, fun _ => rfl⟩

/-- The mask after a whole sequence of `add_loglevel` calls depends only on
the starting mask and the sequence of names. -/
theorem applyAdds_mask_congr (L : List String) (seq : List String)
    (s s' : LogState) (hmask : s.loglevel = s'.loglevel) :
    (applyAdds L s seq).loglevel = (applyAdds L s' seq).loglevel := by
  induction seq generalizing s s' with
  | nil => exact hmask
  | cons n rest ih =>
      simp only [applyAdds, List.foldl_cons] at *
      exact ih _ _ (add_loglevel_mask_congr L s s' n hmask)

/-- C7: the level mask is a pure function of the `add_loglevel` sequence —
its update depends only on the incoming mask and the names requested, and
the other operations (`set_verbosity`, `errorlog`, `init_logging`) never
change it — and enabling is monotonic: every bit set before an
`add_loglevel` call is still set after it. -/
theorem c7_mask_purity_and_monotone (L : List String) (s s' : LogState)
    (name : String) (hmask : s.loglevel = s'.loglevel)
    (hlt : s.loglevel < 2 ^ 64) :
    (add_loglevel L s name).2.loglevel = (add_loglevel L s' name).2.loglevel ∧
    (∀ seq, (applyAdds L s seq).loglevel = (applyAdds L s' seq).loglevel) ∧
    (∀ b, (set_verbosity b s).loglevel = s.loglevel) ∧
    (∀ t msg s₂, (errorlog s t msg).2 = some s₂ → s₂.loglevel = s.loglevel) ∧
    (∀ r ok t s₂, (init_logging s r ok t).2 = some s₂ →
      s₂.loglevel = s.loglevel) ∧
    (∀ j, s.loglevel.testBit j = true →
      ((add_loglevel L s name).2.loglevel).testBit j = true) := by
  refine ⟨add_loglevel_mask_congr L s s' name hmask,
    fun seq => applyAdds_mask_congr L seq s s' hmask, fun _ => rfl, ?_, ?_, ?_⟩
  · intro t msg s₂ h
    cases hf : s.errorfile with
    | none => simp [errorlog, hf] at h
    | some f =>
        simp [errorlog, hf] at h
        subst h
        rfl
  · intro r ok t s₂ h
    cases r with
    | none =>
        cases hf : s.errorfile with
        | none => simp [init_logging, errorlog, hf] at h
        | some f =>
            simp [init_logging, errorlog, hf] at h
            subst h
            rfl
    | some nm =>
        simp [init_logging] at h
        subst h
        rfl
  · intro j hj
    have hjlt : j < 64 := by
      by_contra hge
      rw [Nat.testBit_eq_false_of_lt (lt_of_lt_of_le hlt
        (Nat.pow_le_pow_right (by norm_num) (le_of_not_lt hge)))] at hj
      exact Bool.false_ne_true hj
    by_cases hall : strcaseeq name "all" = true
    · have : (add_loglevel L s name).2.loglevel = 2 ^ 64 - 1 := by
        simp [add_loglevel, hall, UINT64_MAX]
      rw [this, Nat.testBit_two_pow_sub_one]
      simpa using hjlt
    · cases hfind : L.findIdx? (fun l => strcaseeq l name) with
      | none => simpa [add_loglevel, hall, hfind] using hj
      | some i =>
          have : (add_loglevel L s name).2.loglevel
              = s.loglevel ||| cIntShiftToU64 (i + 1) := by
            simp [add_loglevel, hall, hfind]
          rw [this, Nat.testBit_or, hj]
          rfl

theorem c7_witness :
    ((add_loglevel ["event", "ipc"] initState "ipc").2.loglevel
        = (add_loglevel ["event", "ipc"]
            { initState with verbose := false } "ipc").2.loglevel) ∧
    (∀ seq, (applyAdds ["event", "ipc"] initState seq).loglevel
        = (applyAdds ["event", "ipc"]
            { initState with verbose := false } seq).loglevel) ∧
    (∀ b, (set_verbosity b initState).loglevel = initState.loglevel) ∧
    (∀ t msg s₂, (errorlog initState t msg).2 = some s₂ →
      s₂.loglevel = initState.loglevel) ∧
    (∀ r ok t s₂, (init_logging initState r ok t).2 = some s₂ →
      s₂.loglevel = initState.loglevel) ∧
    (∀ j, initState.loglevel.testBit j = true →
      ((add_loglevel ["event", "ipc"] initState "ipc").2.loglevel).testBit j
        = true) :=
  c7_mask_purity_and_monotone ["event", "ipc"] initState
    { initState with verbose := false } "ipc" rfl (by norm_num [initState])

/-- C8: `add_loglevel` is idempotent — for every state and every name
(known, unknown, or `"all"`), calling it twice with the same name produces
the same output and the same level mask as calling it once. -/
theorem c8_idempotent (L : List String) (s : LogState) (name : String) :
    add_loglevel L (add_loglevel L s name).2 name = add_loglevel L s name := by
  by_cases hall : strcaseeq name "all" = true
  · simp [add_loglevel, hall]
  · cases hfind : L.findIdx? (fun l => strcaseeq l name) with
    | none => simp [add_loglevel, hall, hfind]
    | some i => simp [add_loglevel, hall, hfind, Nat.or_assoc, Nat.or_self]

/-- C9: `add_loglevel` with a name matching neither `"all"` nor any list
entry (case-insensitively) is a silent no-op: no stdout write and an
unchanged state. -/
theorem c9_unknown_is_silent_noop (L : List String) (s : LogState)
    (name : String) (hall : strcaseeq name "all" = false)
    (hmem : ∀ e ∈ L, strcaseeq e name = false) :
    add_loglevel L s name = ([], s) := by
  have hfind : L.findIdx? (fun l => strcaseeq l name) = none :=
    List.findIdx?_eq_none_iff.mpr hmem
  simp [add_loglevel, hall, hfind]

theorem c9_witness :
    add_loglevel ["event", "ipc"] initState "focus" = ([], initState) :=
  c9_unknown_is_silent_noop ["event", "ipc"] initState "focus"
    (by decide) (by decide)

/-- C10: the reserved-name check runs before the list search, so when the
host list itself contains a case-variant of `"all"` at some position, both
the name `"all"` and any name matching that entry set every bit of the mask;
the entry's individual bit is never set on its own. -/
theorem c10_reserved_precedes_search (L1 L2 : List String) (s : LogState)
    (e name : String) (he : strcaseeq e "all" = true) :
    (strcaseeq name "all" = true →
      (add_loglevel (L1 ++ e :: L2) s name).2.loglevel = UINT64_MAX) ∧
    (strcaseeq name e = true →
      (add_loglevel (L1 ++ e :: L2) s name).2.loglevel = UINT64_MAX) := by
  constructor
  · intro h
    simp [add_loglevel, h]
  · intro h
    simp [add_loglevel, strcaseeq_trans h he]

theorem c10_witness :
    (add_loglevel ["event", "All", "ipc"] initState "all").2.loglevel
        = UINT64_MAX ∧
    (add_loglevel ["event", "All", "ipc"] initState "aLl").2.loglevel
        = UINT64_MAX :=
  ⟨(c10_reserved_precedes_search ["event"] ["ipc"] initState "All" "all"
      (by decide)).1 (by decide),
   (c10_reserved_precedes_search ["event"] ["ipc"] initState "All" "aLl"
      (by decide)).2 (by decide)⟩
